import Mathlib

/-!
Verification of `app/schemas/user_schemas.py` (pydantic v2 schemas, v1-style
validators): field validators, the three record shapes (create / update /
outward response) and their cross-field rules, shallowly embedded in Lean.

Conventions of the embedding:
* Python regexes are embedded as executable parsers over `List Char`,
  translated construct by construct from the pattern strings; character
  classes such as `\w` and `\s` are read in their ASCII range, which is the
  range the validated data uses.  The `$` anchor is read as end-of-string.
* A raw draft field is `RawVal`: absent from the input mapping, explicitly
  null, or a string.  Python truthiness of such a value is `RawVal.truthy`.
* A validator that raises `ValueError msg` is embedded as
  `Except String _` / a field error pair `(field, msg)`.
* pydantic v2 semantics used: a `pre=True` field validator transforms the
  raw value before the field's own constraints (`min_length`, `pattern`)
  run; `always=True` makes the default value go through the same pipeline;
  a `pre=True` root validator runs before every field validator and its
  failure is the single error of the run; otherwise all field errors of one
  run are aggregated in field order into one validation error.
* The external nickname generator `generate_nickname()` is a parameter
  `gen : String`, the string it returns during the run.
-/

/-- A raw value of a client-supplied draft mapping: the key is absent,
its value is null (Python `None`), or it is a string. -/
inductive RawVal where
  | absent
  | null
  | str (s : String)
deriving DecidableEq, Repr

/-- Python truthiness of a raw value as seen by `any(values.values())`:
an absent key contributes nothing (false), `None` and `""` are falsy,
a non-empty string is truthy. -/
def RawVal.truthy : RawVal → Bool
  | .absent => false
  | .null => false
  | .str s => !(s == "")

/-- The optional-string view of a raw value, as pydantic hands it to an
`Optional[str]` field: absent and null both become `None`. -/
def RawVal.toOpt : RawVal → Option String
  | .absent => none
  | .null => none
  | .str s => some s

/-- The raw value a normalized optional field turns back into when the
record is fed in again as a draft. -/
def Option.toRaw : Option String → RawVal
  | none => .null
  | some s => .str s

/-- Character class `[a-zA-Z0-9-_]` of the GitHub username segment. -/
def isGithubSegChar (c : Char) : Bool :=
  c.isAlpha || c.isDigit || c == '-' || c == '_'

/-- Character class `[a-zA-Z0-9-_%]` of the LinkedIn username segment. -/
def isLinkedinSegChar (c : Char) : Bool :=
  c.isAlpha || c.isDigit || c == '-' || c == '_' || c == '%'

/-- Character class `[\w-]` of the nickname pattern, ASCII range. -/
def isNickChar (c : Char) : Bool :=
  c.isAlpha || c.isDigit || c == '_' || c == '-'

/-- Consume a literal: `dropLit lit cs = some rest` iff `cs = lit ++ rest`. -/
def dropLit : List Char → List Char → Option (List Char)
  | [], cs => some cs
  | _ :: _, [] => none
  | p :: ps, c :: cs => if p = c then dropLit ps cs else none

/-- Consume `https?://`: the literal `http`, an optional `s`, then `://`.
The alternation is deterministic because `s` and `:` differ. -/
def dropScheme (cs : List Char) : Option (List Char) :=
  match dropLit ['h', 't', 't', 'p'] cs with
  | none => none
  | some r =>
    if r.head? = some 's' then dropLit [':', '/', '/'] r.tail
    else dropLit [':', '/', '/'] r

/-- Consume the optional literal `www.` (regex `(?:www\.)?`). -/
def dropOptWww (cs : List Char) : List Char :=
  match dropLit ['w', 'w', 'w', '.'] cs with
  | some r => r
  | none => cs

/-- Tail of the username segment: regex `[class]*\/?$` after the first
segment character has been consumed. -/
def segRest (allowed : Char → Bool) : List Char → Bool
  | [] => true
  | [c] => allowed c || c == '/'
  | c :: cs => allowed c && segRest allowed cs

/-- Regex `[class]+\/?$`: a non-empty run of segment characters, an
optional trailing slash, end of string. -/
def segOk (allowed : Char → Bool) : List Char → Bool
  | [] => false
  | c :: cs => allowed c && segRest allowed cs

/-- Matcher of `^https?:\/\/(?:www\.)?<host><segment>+\/?$` shared by the
GitHub and LinkedIn patterns: `host` is the literal after the optional
`www.` and `allowed` the segment character class. -/
def hostSegMatch (host : List Char) (allowed : Char → Bool) (s : String) : Bool :=
  match dropScheme s.data with
  | none => false
  | some r =>
    match dropLit host (dropOptWww r) with
    | none => false
    | some r2 => segOk allowed r2

/-- Matcher of the GitHub pattern
`^https?:\/\/(?:www\.)?github\.com\/[a-zA-Z0-9-_]+\/?$`. -/
def matches_github_url (s : String) : Bool :=
  hostSegMatch "github.com/".data isGithubSegChar s

/-- Matcher of the LinkedIn pattern
`^https?:\/\/(?:www\.)?linkedin\.com\/in\/[a-zA-Z0-9-_%]+\/?$`. -/
def matches_linkedin_url (s : String) : Bool :=
  hostSegMatch "linkedin.com/in/".data isLinkedinSegChar s

/-- Matcher of the generic URL pattern `^https?:\/\/[^\s/$.?#].[^\s]*$`:
scheme, one character outside `\s/$.?#`, one character other than a
newline, then non-whitespace characters. -/
def matches_generic_url (s : String) : Bool :=
  match dropScheme s.data with
  | none => false
  | some r =>
    match r with
    | c1 :: c2 :: rest =>
      !(c1.isWhitespace || c1 == '/' || c1 == '$' || c1 == '.' || c1 == '?' || c1 == '#')
        && c2 != '\n' && rest.all (fun c => !c.isWhitespace)
    | _ => false

/-- Embedding of `validate_url`: `None` passes through, otherwise the
generic URL pattern must match or `ValueError('Invalid URL format')`. -/
def validate_url : Option String → Except String (Option String)
  | none => .ok none
  | some url =>
    if matches_generic_url url then .ok (some url)
    else .error "Invalid URL format"

/-- Embedding of `validate_password`: length at least 8, then at least one
uppercase, one lowercase, one digit, checked in that order, value returned
unchanged. -/
def validate_password (password : String) : Except String String :=
  if password.length < 8 then
    .error "Password must be at least 8 characters."
  else if !password.data.any Char.isUpper then
    .error "Password must contain at least one uppercase letter."
  else if !password.data.any Char.isLower then
    .error "Password must contain at least one lowercase letter."
  else if !password.data.any Char.isDigit then
    .error "Password must contain at least one digit."
  else
    .ok password

/-- Embedding of `validate_github_url`: `None` passes through, otherwise
the GitHub pattern must match. -/
def validate_github_url : Option String → Except String (Option String)
  | none => .ok none
  | some url =>
    if matches_github_url url then .ok (some url)
    else .error "Invalid GitHub profile URL. The correct format is: https://github.com/<username>."

/-- Embedding of `validate_linkedin_url`: `None` passes through, otherwise
the LinkedIn pattern must match. -/
def validate_linkedin_url : Option String → Except String (Option String)
  | none => .ok none
  | some url =>
    if matches_linkedin_url url then .ok (some url)
    else .error "Invalid LinkedIn profile URL. The correct format is: https://www.linkedin.com/in/<username>."

deriving instance DecidableEq for Except

/-- Modelled from the spec: `UserRole` lives in `app/models/user_model.py`,
outside the given sources; the spec describes a closed enumeration with
members such as ANONYMOUS, AUTHENTICATED, MODERATOR, ADMIN. -/
inductive UserRole where
  | ANONYMOUS
  | AUTHENTICATED
  | MODERATOR
  | ADMIN
deriving DecidableEq, Repr

/-- Modelled from the spec: parsing a raw string into the closed `UserRole`
enumeration; a string naming no member parses to `none`. -/
def parseUserRole (s : String) : Option UserRole :=
  if s == "ANONYMOUS" then some .ANONYMOUS
  else if s == "AUTHENTICATED" then some .AUTHENTICATED
  else if s == "MODERATOR" then some .MODERATOR
  else if s == "ADMIN" then some .ADMIN
  else none

/-- String form of a `UserRole` member, the value it serializes back to. -/
def UserRole.asString : UserRole → String
  | .ANONYMOUS => "ANONYMOUS"
  | .AUTHENTICATED => "AUTHENTICATED"
  | .MODERATOR => "MODERATOR"
  | .ADMIN => "ADMIN"

/-- Modelled from the spec: `EmailStr` validation comes from an external
library; the spec asks only that the value parse as a syntactically valid
address of local@domain form, embedded as exactly one at-sign with
non-empty text on both sides. -/
def is_valid_email (s : String) : Bool :=
  s.data.count '@' == 1 && s.data.head? != some '@' && s.data.getLast? != some '@'

/-- The nickname field constraints of the schemas:
min_length 3 and pattern matching regex `[\w-]+` anchored on both sides. -/
def nicknameOk (s : String) : Bool :=
  3 ≤ s.length && s.data.all isNickChar

/-- A validation failure of a record shape: the single record-level error a
pre root validator raises, or the aggregated field-scoped errors, each a
pair of field name and message. -/
inductive ValidationError where
  | record (msg : String)
  | fields (errs : List (String × String))
deriving DecidableEq, Repr

/-- The field errors one field's result contributes to the aggregate. -/
def errsOf {α : Type} : Except (String × String) α → List (String × String)
  | .ok _ => []
  | .error e => [e]

/-- A raw `UserUpdate` draft: every declared field of the schema as a raw
mapping value (role is a plain optional string on update). -/
structure UpdateDraft where
  email : RawVal
  nickname : RawVal
  first_name : RawVal
  last_name : RawVal
  bio : RawVal
  profile_picture_url : RawVal
  linkedin_profile_url : RawVal
  github_profile_url : RawVal
  role : RawVal
deriving DecidableEq, Repr

/-- The normalized `UserUpdate` record: every field optional, role kept in
string form exactly as supplied. -/
structure UserUpdate where
  email : Option String
  nickname : Option String
  first_name : Option String
  last_name : Option String
  bio : Option String
  profile_picture_url : Option String
  linkedin_profile_url : Option String
  github_profile_url : Option String
  role : Option String
deriving DecidableEq, Repr

/-- Embedding of `UserUpdate.check_at_least_one_value`'s condition:
`any(values.values())` over the raw draft, Python truthiness. -/
def updateAnyTruthy (d : UpdateDraft) : Bool :=
  d.email.truthy || d.nickname.truthy || d.first_name.truthy || d.last_name.truthy
    || d.bio.truthy || d.profile_picture_url.truthy || d.linkedin_profile_url.truthy
    || d.github_profile_url.truthy || d.role.truthy

/-- The optional email field of `UserUpdate`: absent or null is valid and
empty; a supplied string must be a valid address. -/
def updateEmailField (v : RawVal) : Except (String × String) (Option String) :=
  match v.toOpt with
  | none => .ok none
  | some s =>
    if is_valid_email s then .ok (some s)
    else .error ("email", "value is not a valid email address")

/-- The optional nickname field: absent or null is valid and empty; a
supplied string must meet the min_length and pattern constraints. -/
def updateNicknameField (v : RawVal) : Except (String × String) (Option String) :=
  match v.toOpt with
  | none => .ok none
  | some s =>
    if nicknameOk s then .ok (some s)
    else .error ("nickname", "string does not meet the nickname constraints")

/-- An optional URL field guarded by one of the pre validators: the raw
optional value goes through the validator and a raised message becomes a
field error on the named field. -/
def urlField (name : String) (validator : Option String → Except String (Option String))
    (v : RawVal) : Except (String × String) (Option String) :=
  match validator v.toOpt with
  | .ok o => .ok o
  | .error msg => .error (name, msg)

/-- Embedding of `UserUpdate` validation: the pre root validator
`check_at_least_one_value` first (its failure is the only error of the
run), then every field validator on the supplied fields, all field errors
aggregated in field order. The role field is `Optional[str]` on update:
any supplied string is kept verbatim, with no check against `UserRole`. -/
def validateUpdate (d : UpdateDraft) : Except ValidationError UserUpdate :=
  if !updateAnyTruthy d then
    .error (.record "At least one field must be provided for update")
  else
    match updateEmailField d.email, updateNicknameField d.nickname,
      urlField "profile_picture_url" validate_url d.profile_picture_url,
      urlField "linkedin_profile_url" validate_linkedin_url d.linkedin_profile_url,
      urlField "github_profile_url" validate_github_url d.github_profile_url with
    | .ok e, .ok n, .ok pp, .ok li, .ok gh =>
      .ok ⟨e, n, d.first_name.toOpt, d.last_name.toOpt, d.bio.toOpt, pp, li, gh, d.role.toOpt⟩
    | eR, nR, ppR, liR, ghR =>
      .error (.fields (errsOf eR ++ errsOf nR ++ errsOf ppR ++ errsOf liR ++ errsOf ghR))

/-- A raw `UserCreate` draft: every declared field of the schema as a raw
mapping value; email, password and role are required, nickname falls back
to the generator. -/
structure CreateDraft where
  email : RawVal
  nickname : RawVal
  first_name : RawVal
  last_name : RawVal
  bio : RawVal
  profile_picture_url : RawVal
  linkedin_profile_url : RawVal
  github_profile_url : RawVal
  role : RawVal
  password : RawVal
deriving DecidableEq, Repr

/-- The normalized `UserCreate` record. -/
structure UserCreate where
  email : String
  nickname : Option String
  first_name : Option String
  last_name : Option String
  bio : Option String
  profile_picture_url : Option String
  linkedin_profile_url : Option String
  github_profile_url : Option String
  role : UserRole
  password : String
deriving DecidableEq, Repr

/-- The required email field of `UserCreate`. -/
def createEmailField (v : RawVal) : Except (String × String) String :=
  match v with
  | .absent => .error ("email", "Field required")
  | .null => .error ("email", "Input should be a valid string")
  | .str s =>
    if is_valid_email s then .ok s
    else .error ("email", "value is not a valid email address")

/-- Embedding of `set_or_generate_nickname`, the pre, always validator of
the nickname field: value or generate_nickname(), so a falsy raw value
(an absent field, null, or the empty string) becomes the generator's
string and a truthy string is kept. -/
def resolveNickname (gen : String) : RawVal → String
  | .str s => if s == "" then gen else s
  | _ => gen

/-- The min_length and pattern constraints of the nickname field, applied
to whatever string the before validator produced. -/
def nickConstraint (s : String) : Except (String × String) (Option String) :=
  if nicknameOk s then .ok (some s)
  else .error ("nickname", "string does not meet the nickname constraints")

/-- The nickname field of `UserCreate`: the pre, always validator
`set_or_generate_nickname` resolves the raw value, and the resolved value
then goes through the field's min_length and pattern constraints, as any
before-validator output does. -/
def createNicknameField (gen : String) (v : RawVal) : Except (String × String) (Option String) :=
  nickConstraint (resolveNickname gen v)

/-- The required role field of `UserCreate`: the raw string must parse as
a member of the closed `UserRole` enumeration. -/
def createRoleField (v : RawVal) : Except (String × String) UserRole :=
  match v with
  | .absent => .error ("role", "Field required")
  | .null => .error ("role", "Input should be a valid UserRole")
  | .str s =>
    match parseUserRole s with
    | some r => .ok r
    | none => .error ("role", "Input should be a valid UserRole")

/-- The required password field of `UserCreate`: the pre validator
`validate_password` runs on the supplied string and its message becomes
the field error. -/
def createPasswordField (v : RawVal) : Except (String × String) String :=
  match v with
  | .absent => .error ("password", "Field required")
  | .null => .error ("password", "Input should be a valid string")
  | .str s =>
    match validate_password s with
    | .ok p => .ok p
    | .error msg => .error ("password", msg)

/-- Every field error of one `UserCreate` validation run, in field order:
all failures of one pass are aggregated, none masks another. -/
def createErrors (gen : String) (d : CreateDraft) : List (String × String) :=
  errsOf (createEmailField d.email) ++ errsOf (createNicknameField gen d.nickname)
    ++ errsOf (urlField "profile_picture_url" validate_url d.profile_picture_url)
    ++ errsOf (urlField "linkedin_profile_url" validate_linkedin_url d.linkedin_profile_url)
    ++ errsOf (urlField "github_profile_url" validate_github_url d.github_profile_url)
    ++ errsOf (createRoleField d.role) ++ errsOf (createPasswordField d.password)

/-- Embedding of `UserCreate` validation: every field validator runs on
its raw value (`gen` is the string the nickname generator returns during
the run); if any field fails, the run fails with all field errors
aggregated in field order, otherwise the normalized record is produced. -/
def validateCreate (gen : String) (d : CreateDraft) : Except ValidationError UserCreate :=
  match createEmailField d.email, createNicknameField gen d.nickname,
    urlField "profile_picture_url" validate_url d.profile_picture_url,
    urlField "linkedin_profile_url" validate_linkedin_url d.linkedin_profile_url,
    urlField "github_profile_url" validate_github_url d.github_profile_url,
    createRoleField d.role, createPasswordField d.password with
  | .ok e, .ok n, .ok pp, .ok li, .ok gh, .ok ro, .ok pw =>
    .ok ⟨e, n, d.first_name.toOpt, d.last_name.toOpt, d.bio.toOpt, pp, li, gh, ro, pw⟩
  | _, _, _, _, _, _, _ =>
    .error (.fields (createErrors gen d))

/-- The raw draft a normalized `UserCreate` record turns back into when
its fields are fed in again as input: strings stay strings, empty optional
fields are null, the role serializes to its string form. -/
def draftOfCreate (r : UserCreate) : CreateDraft :=
  ⟨.str r.email, r.nickname.toRaw, r.first_name.toRaw, r.last_name.toRaw, r.bio.toRaw,
    r.profile_picture_url.toRaw, r.linkedin_profile_url.toRaw, r.github_profile_url.toRaw,
    .str r.role.asString, .str r.password⟩

/-- A stored user record as the persistence layer hands it back: every
profile field plus the server-assigned identifier, the professional flag
and the stored password material. -/
structure StoredUser where
  id : Nat
  email : String
  nickname : Option String
  first_name : Option String
  last_name : Option String
  bio : Option String
  profile_picture_url : Option String
  linkedin_profile_url : Option String
  github_profile_url : Option String
  role : UserRole
  is_professional : Option Bool
  password : String
deriving DecidableEq, Repr

/-- The outward `UserResponse` shape: identifier, profile fields, role and
the professional flag; no password field is declared. -/
structure UserResponse where
  id : Nat
  email : String
  nickname : Option String
  first_name : Option String
  last_name : Option String
  bio : Option String
  profile_picture_url : Option String
  linkedin_profile_url : Option String
  github_profile_url : Option String
  role : UserRole
  is_professional : Option Bool
deriving DecidableEq, Repr

/-- Embedding of building `UserResponse` from a stored record through
from_attributes: each declared response field is read off the source
record; the password is not among them. -/
def toUserResponse (u : StoredUser) : UserResponse :=
  ⟨u.id, u.email, u.nickname, u.first_name, u.last_name, u.bio,
    u.profile_picture_url, u.linkedin_profile_url, u.github_profile_url,
    u.role, u.is_professional⟩

/-- The password rules in the spec's fixed reporting order (length, then
missing uppercase, then missing lowercase, then missing digit): the list
of messages of every violated rule, first violated rule first. -/
def passwordViolations (p : String) : List String :=
  (if p.length < 8 then ["Password must be at least 8 characters."] else [])
    ++ (if !p.data.any Char.isUpper then ["Password must contain at least one uppercase letter."] else [])
    ++ (if !p.data.any Char.isLower then ["Password must contain at least one lowercase letter."] else [])
    ++ (if !p.data.any Char.isDigit then ["Password must contain at least one digit."] else [])

/-- The scheme characters of a URL: https:// or http://. -/
def schemeChars (ssl : Bool) : List Char :=
  if ssl then ['h', 't', 't', 'p', 's', ':', '/', '/'] else ['h', 't', 't', 'p', ':', '/', '/']

/-- The optional www. characters of a URL. -/
def wwwChars (www : Bool) : List Char :=
  if www then ['w', 'w', 'w', '.'] else []

/-- The optional trailing slash of a URL. -/
def slashChars (slash : Bool) : List Char :=
  if slash then ['/'] else []

/-- The language of the profile-URL patterns, stated as the spec states
it: scheme http or https, optional www., the host literal, one non-empty
path segment over the allowed character class, optional trailing slash. -/
def UrlShape (host : String) (allowed : Char → Bool) (s : String) : Prop :=
  ∃ (ssl www slash : Bool) (seg : String),
    seg ≠ "" ∧ seg.data.all allowed = true ∧
    s = (if ssl then "https" else "http") ++ "://" ++ (if www then "www." else "")
      ++ host ++ seg ++ (if slash then "/" else "")

/-- An update draft supplying only the role string. -/
def roleOnlyDraft (s : String) : UpdateDraft :=
  ⟨.absent, .absent, .absent, .absent, .absent, .absent, .absent, .absent, .str s⟩

/-- An update draft with every declared field absent from the input. -/
def emptyUpdateDraft : UpdateDraft :=
  ⟨.absent, .absent, .absent, .absent, .absent, .absent, .absent, .absent, .absent⟩

/-- An update draft whose supplied fields are all falsy: the first name is
explicitly null and the bio is the empty string; no field is truthy. -/
def falsyUpdateDraft : UpdateDraft :=
  ⟨.absent, .absent, .null, .absent, .str "", .absent, .absent, .absent, .absent⟩

/-- A create draft with two bad fields: the email is missing and the
password is too short; role is fine and the nickname falls back to the
generator. -/
def twoBadFieldsDraft : CreateDraft :=
  ⟨.absent, .absent, .absent, .absent, .absent, .absent, .absent, .absent, .str "ADMIN", .str "short"⟩

/-- A create draft that is valid except that it supplies no nickname, so
the generator's string decides the nickname field. -/
def noNicknameDraft : CreateDraft :=
  ⟨.str "john@example.com", .absent, .absent, .absent, .absent, .absent, .absent, .absent,
    .str "ADMIN", .str "Secure123"⟩

/-- A valid create draft used as concrete input: nickname absent (so
generated), one URL supplied, one name supplied, one field null. -/
def demoCreateDraft : CreateDraft :=
  ⟨.str "john@example.com", .absent, .str "John", .absent, .null, .absent, .absent,
    .str "https://github.com/johndoe", .str "AUTHENTICATED", .str "Secure123"⟩

/-- The normalized record `demoCreateDraft` validates into when the
generator returns the string gennick1. -/
def demoCreateRecord : UserCreate :=
  ⟨"john@example.com", some "gennick1", some "John", none, none, none, none,
    some "https://github.com/johndoe", .AUTHENTICATED, "Secure123"⟩

theorem dropLit_eq_some {p cs r : List Char} : dropLit p cs = some r ↔ cs = p ++ r := by
  induction p generalizing cs with
  | nil => simp [dropLit]
  | cons a ps ih =>
    cases cs with
    | nil => simp [dropLit]
    | cons c cs' =>
      by_cases hac : a = c
      · subst hac
        simp [dropLit, ih]
      · simp [dropLit, hac]
        exact fun h _ => hac h.symm

theorem dropLit_self (p r : List Char) : dropLit p (p ++ r) = some r :=
  dropLit_eq_some.mpr rfl

theorem toRaw_toOpt (o : Option String) : o.toRaw.toOpt = o := by
  cases o <;> rfl

theorem parse_asString (r : UserRole) : parseUserRole r.asString = some r := by
  cases r <;> rfl

theorem dropScheme_eq_some {cs r : List Char} :
    dropScheme cs = some r ↔ ∃ ssl : Bool, cs = schemeChars ssl ++ r := by
  constructor
  · intro h
    unfold dropScheme at h
    cases hd : dropLit ['h', 't', 't', 'p'] cs with
    | none => rw [hd] at h; exact absurd h (by simp)
    | some r1 =>
      rw [hd] at h
      have h' : (if r1.head? = some 's' then dropLit [':', '/', '/'] r1.tail
          else dropLit [':', '/', '/'] r1) = some r := h
      have hcs : cs = ['h', 't', 't', 'p'] ++ r1 := dropLit_eq_some.mp hd
      by_cases hh : r1.head? = some 's'
      · rw [if_pos hh] at h'
        have h2 : r1.tail = [':', '/', '/'] ++ r := dropLit_eq_some.mp h'
        cases r1 with
        | nil => exact absurd hh (by simp)
        | cons c r' =>
          simp at hh h2
          refine ⟨true, ?_⟩
          simp [hcs, h2, hh, schemeChars]
      · rw [if_neg hh] at h'
        have h2 : r1 = [':', '/', '/'] ++ r := dropLit_eq_some.mp h'
        exact ⟨false, by simp [hcs, h2, schemeChars]⟩
  · rintro ⟨ssl, hcs⟩
    cases ssl <;> simp [schemeChars] at hcs <;> subst hcs <;> rfl

theorem segRest_iff (allowed : Char → Bool) (r : List Char) :
    segRest allowed r = true ↔
      ∃ (slash : Bool) (seg : List Char),
        seg.all allowed = true ∧ r = seg ++ slashChars slash := by
  induction r with
  | nil =>
    constructor
    · intro _
      exact ⟨false, [], rfl, rfl⟩
    · intro _
      rfl
  | cons c cs ih =>
    cases cs with
    | nil =>
      constructor
      · intro h
        have h' : (allowed c || c == '/') = true := h
        rcases Bool.or_eq_true_iff.mp h' with h1 | h1
        · exact ⟨false, [c], by simp [h1], by simp [slashChars]⟩
        · have hc : c = '/' := by simpa using h1
          exact ⟨true, [], rfl, by simp [slashChars, hc]⟩
      · rintro ⟨slash, seg, hall, heq⟩
        show (allowed c || c == '/') = true
        cases slash with
        | false =>
          have hseg : seg = [c] := by simpa [slashChars] using heq.symm
          subst hseg
          simp only [List.all_cons, List.all_nil, Bool.and_true] at hall
          simp [hall]
        | true =>
          have hseg : seg = [] := by
            cases seg with
            | nil => rfl
            | cons d seg2 =>
              exfalso
              have hl := congrArg List.length heq
              simp [slashChars] at hl
          subst hseg
          have hc : c = '/' := by simpa [slashChars] using heq
          simp [hc]
    | cons c2 cs2 =>
      constructor
      · intro h
        have h' : (allowed c && segRest allowed (c2 :: cs2)) = true := h
        have h1 := (Bool.and_eq_true_iff.mp h').1
        have h2 := (Bool.and_eq_true_iff.mp h').2
        rcases ih.mp h2 with ⟨slash, seg, hall, heq⟩
        exact ⟨slash, c :: seg, by simp [List.all_cons, h1, hall], by simp [heq]⟩
      · rintro ⟨slash, seg, hall, heq⟩
        show (allowed c && segRest allowed (c2 :: cs2)) = true
        cases seg with
        | nil =>
          exfalso
          cases slash <;> simp [slashChars] at heq
        | cons d seg2 =>
          injection heq with hcd hrest
          subst hcd
          simp only [List.all_cons, Bool.and_eq_true_iff] at hall
          exact Bool.and_eq_true_iff.mpr ⟨hall.1, ih.mpr ⟨slash, seg2, hall.2, hrest⟩⟩

theorem segOk_iff (allowed : Char → Bool) (r : List Char) :
    segOk allowed r = true ↔
      ∃ (slash : Bool) (seg : List Char),
        seg ≠ [] ∧ seg.all allowed = true ∧ r = seg ++ slashChars slash := by
  cases r with
  | nil =>
    constructor
    · intro h
      exact absurd h (by simp [segOk])
    · rintro ⟨slash, seg, hne, _, heq⟩
      exfalso
      cases seg with
      | nil => exact hne rfl
      | cons d seg2 => cases slash <;> simp [slashChars] at heq
  | cons c cs =>
    constructor
    · intro h
      have h' : (allowed c && segRest allowed cs) = true := h
      have h1 := (Bool.and_eq_true_iff.mp h').1
      have h2 := (Bool.and_eq_true_iff.mp h').2
      rcases (segRest_iff allowed cs).mp h2 with ⟨slash, seg, hall, heq⟩
      exact ⟨slash, c :: seg, by simp, by simp [List.all_cons, h1, hall], by simp [heq]⟩
    · rintro ⟨slash, seg, hne, hall, heq⟩
      show (allowed c && segRest allowed cs) = true
      cases seg with
      | nil => exact absurd rfl hne
      | cons d seg2 =>
        injection heq with hcd hrest
        subst hcd
        simp only [List.all_cons, Bool.and_eq_true_iff] at hall
        exact Bool.and_eq_true_iff.mpr ⟨hall.1, (segRest_iff allowed cs).mpr ⟨slash, seg2, hall.2, hrest⟩⟩

theorem hostSegMatch_iff (hc : Char) (htl : List Char) (allowed : Char → Bool)
    (hw : hc ≠ 'w') (s : String) :
    hostSegMatch (hc :: htl) allowed s = true ↔
      ∃ (ssl www slash : Bool) (seg : List Char),
        seg ≠ [] ∧ seg.all allowed = true ∧
        s.data = schemeChars ssl ++ wwwChars www ++ (hc :: htl) ++ seg ++ slashChars slash := by
  constructor
  · intro h
    unfold hostSegMatch at h
    cases hs : dropScheme s.data with
    | none => rw [hs] at h; exact absurd h (by simp)
    | some r =>
      rw [hs] at h
      have h' : (match dropLit (hc :: htl) (dropOptWww r) with
          | none => false
          | some r2 => segOk allowed r2) = true := h
      rcases dropScheme_eq_some.mp hs with ⟨ssl, hdata⟩
      cases hh : dropLit (hc :: htl) (dropOptWww r) with
      | none => rw [hh] at h'; exact absurd h' (by simp)
      | some r2 =>
        rw [hh] at h'
        rcases (segOk_iff allowed r2).mp h' with ⟨slash, seg, hne, hall, hr2⟩
        cases hwww : dropLit ['w', 'w', 'w', '.'] r with
        | some r' =>
          have hrw : r = ['w', 'w', 'w', '.'] ++ r' := dropLit_eq_some.mp hwww
          have hopt : dropOptWww r = r' := by unfold dropOptWww; rw [hwww]
          rw [hopt] at hh
          have hr' : r' = (hc :: htl) ++ r2 := dropLit_eq_some.mp hh
          refine ⟨ssl, true, slash, seg, hne, hall, ?_⟩
          simp [hdata, hrw, hr', hr2, wwwChars]
        | none =>
          have hopt : dropOptWww r = r := by unfold dropOptWww; rw [hwww]
          rw [hopt] at hh
          have hr' : r = (hc :: htl) ++ r2 := dropLit_eq_some.mp hh
          refine ⟨ssl, false, slash, seg, hne, hall, ?_⟩
          simp [hdata, hr', hr2, wwwChars]
  · rintro ⟨ssl, www, slash, seg, hne, hall, hdata⟩
    unfold hostSegMatch
    have hs : dropScheme s.data
        = some (wwwChars www ++ ((hc :: htl) ++ (seg ++ slashChars slash))) := by
      apply dropScheme_eq_some.mpr
      exact ⟨ssl, by simp [hdata, List.append_assoc]⟩
    rw [hs]
    show (match dropLit (hc :: htl)
        (dropOptWww (wwwChars www ++ ((hc :: htl) ++ (seg ++ slashChars slash)))) with
      | none => false
      | some r2 => segOk allowed r2) = true
    have hopt : dropOptWww (wwwChars www ++ ((hc :: htl) ++ (seg ++ slashChars slash)))
        = (hc :: htl) ++ (seg ++ slashChars slash) := by
      cases www with
      | true =>
        show dropOptWww (['w', 'w', 'w', '.'] ++ ((hc :: htl) ++ (seg ++ slashChars slash))) = _
        unfold dropOptWww
        rw [dropLit_self]
      | false =>
        show dropOptWww ([] ++ ((hc :: htl) ++ (seg ++ slashChars slash))) = _
        rw [List.nil_append]
        unfold dropOptWww
        have hnone : dropLit ['w', 'w', 'w', '.'] ((hc :: htl) ++ (seg ++ slashChars slash)) = none := by
          show dropLit ['w', 'w', 'w', '.'] (hc :: (htl ++ (seg ++ slashChars slash))) = none
          unfold dropLit
          rw [if_neg (fun hwc => hw hwc.symm)]
        rw [hnone]
    rw [hopt, dropLit_self]
    show segOk allowed (seg ++ slashChars slash) = true
    exact (segOk_iff allowed _).mpr ⟨slash, seg, hne, hall, rfl⟩

theorem data_append (s t : String) : (s ++ t).data = s.data ++ t.data := rfl

theorem scheme_data (ssl : Bool) :
    (((if ssl then "https" else "http") ++ "://" : String)).data = schemeChars ssl := by
  cases ssl <;> rfl

theorem www_data (www : Bool) :
    ((if www then "www." else "" : String)).data = wwwChars www := by
  cases www <;> rfl

theorem slash_data (slash : Bool) :
    ((if slash then "/" else "" : String)).data = slashChars slash := by
  cases slash <;> rfl

theorem hostSegMatch_iff_str (hc : Char) (htl : List Char) (host : String)
    (allowed : Char → Bool) (hw : hc ≠ 'w') (hhost : host.data = hc :: htl) (s : String) :
    hostSegMatch (hc :: htl) allowed s = true ↔ UrlShape host allowed s := by
  rw [hostSegMatch_iff hc htl allowed hw s]
  constructor
  · rintro ⟨ssl, www, slash, seg, hne, hall, hdata⟩
    refine ⟨ssl, www, slash, ⟨seg⟩, ?_, hall, ?_⟩
    · intro hcon
      exact hne (congrArg String.data hcon)
    · apply String.ext
      rw [data_append, data_append, data_append, data_append, scheme_data, www_data,
        slash_data, hhost, hdata]
  · rintro ⟨ssl, www, slash, segS, hne, hall, heq⟩
    refine ⟨ssl, www, slash, segS.data, ?_, hall, ?_⟩
    · intro h
      exact hne (String.ext h)
    · rw [congrArg String.data heq, data_append, data_append, data_append, data_append,
        scheme_data, www_data, slash_data, hhost]

/-- C7: validate_github_url accepts exactly the strings matching the GitHub
pattern (scheme http or https, optional www., host github.com/, one
non-empty path segment over letters, digits, hyphen, underscore, optional
trailing slash), rejects every other string with the GitHub field message,
accepts absent input; in particular the two example URLs are accepted and
the two-segment URL is rejected. -/
theorem validate_github_url_spec :
    (∀ s : String, validate_github_url (some s)
        = if matches_github_url s then .ok (some s)
          else .error "Invalid GitHub profile URL. The correct format is: https://github.com/<username>.")
    ∧ (∀ s : String, matches_github_url s = true ↔ UrlShape "github.com/" isGithubSegChar s)
    ∧ validate_github_url (some "https://github.com/alice") = .ok (some "https://github.com/alice")
    ∧ validate_github_url (some "http://github.com/alice/") = .ok (some "http://github.com/alice/")
    ∧ validate_github_url (some "https://github.com/alice/repo")
        = .error "Invalid GitHub profile URL. The correct format is: https://github.com/<username>."
    ∧ validate_github_url none = .ok none := by
  refine ⟨fun s => rfl, fun s => ?_, by decide, by decide, by decide, rfl⟩
  exact hostSegMatch_iff_str 'g' "ithub.com/".data "github.com/" isGithubSegChar
    (by decide) rfl s

/-- C8: validate_linkedin_url accepts exactly the strings matching the
LinkedIn pattern, whose host literal linkedin.com/in/ contains the /in/
path prefix, and rejects every other string with the LinkedIn field
message; the example URL missing the /in/ prefix is rejected. -/
theorem validate_linkedin_url_spec :
    (∀ s : String, validate_linkedin_url (some s)
        = if matches_linkedin_url s then .ok (some s)
          else .error "Invalid LinkedIn profile URL. The correct format is: https://www.linkedin.com/in/<username>.")
    ∧ (∀ s : String, matches_linkedin_url s = true ↔ UrlShape "linkedin.com/in/" isLinkedinSegChar s)
    ∧ validate_linkedin_url (some "https://www.linkedin.com/in/john-doe")
        = .ok (some "https://www.linkedin.com/in/john-doe")
    ∧ validate_linkedin_url (some "https://linkedin.com/john-doe")
        = .error "Invalid LinkedIn profile URL. The correct format is: https://www.linkedin.com/in/<username>."
    ∧ validate_linkedin_url none = .ok none := by
  refine ⟨fun s => rfl, fun s => ?_, by decide, by decide, rfl⟩
  exact hostSegMatch_iff_str 'l' "inkedin.com/in/".data "linkedin.com/in/" isLinkedinSegChar
    (by decide) rfl s

/-- C3: validate_password returns the password unchanged when every rule
holds, and otherwise fails with the message of the first violated rule in
the fixed order: length at least 8, then missing uppercase, then missing
lowercase, then missing digit (passwordViolations lists the violated
rules in that order). -/
theorem validate_password_first_violation (p : String) :
    validate_password p
      = (match passwordViolations p with
        | [] => .ok p
        | m :: _ => .error m) := by
  unfold validate_password passwordViolations
  split_ifs <;> simp_all

/-- C5: the outward UserResponse carries no password: two stored records
that differ only in their password value produce identical responses. -/
theorem userResponse_independent_of_password (u : StoredUser) (p1 p2 : String) :
    toUserResponse { u with password := p1 } = toUserResponse { u with password := p2 } := rfl

/-- C2: an update draft in which every declared field is absent fails
with the single record-level error of the pre root validator, before any
per-field validation, so no field-scoped error is produced. -/
theorem updateAllAbsent_single_record_error (d : UpdateDraft)
    (h1 : d.email = .absent) (h2 : d.nickname = .absent) (h3 : d.first_name = .absent)
    (h4 : d.last_name = .absent) (h5 : d.bio = .absent) (h6 : d.profile_picture_url = .absent)
    (h7 : d.linkedin_profile_url = .absent) (h8 : d.github_profile_url = .absent)
    (h9 : d.role = .absent) :
    validateUpdate d = .error (.record "At least one field must be provided for update") := by
  obtain ⟨f1, f2, f3, f4, f5, f6, f7, f8, f9⟩ := d
  simp only at h1 h2 h3 h4 h5 h6 h7 h8 h9
  subst h1 h2 h3 h4 h5 h6 h7 h8 h9
  rfl

theorem updateAllAbsent_witness :
    validateUpdate emptyUpdateDraft
      = .error (.record "At least one field must be provided for update") :=
  updateAllAbsent_single_record_error emptyUpdateDraft rfl rfl rfl rfl rfl rfl rfl rfl rfl

/-- C10: the update presence check tests Python truthiness, not presence:
whenever every raw value of the draft is falsy, even if fields are present
as null or as the empty string, validation fails with the record-level
error. -/
theorem updateAllFalsy_record_error (d : UpdateDraft)
    (h1 : d.email.truthy = false) (h2 : d.nickname.truthy = false)
    (h3 : d.first_name.truthy = false) (h4 : d.last_name.truthy = false)
    (h5 : d.bio.truthy = false) (h6 : d.profile_picture_url.truthy = false)
    (h7 : d.linkedin_profile_url.truthy = false) (h8 : d.github_profile_url.truthy = false)
    (h9 : d.role.truthy = false) :
    validateUpdate d = .error (.record "At least one field must be provided for update") := by
  have hall : updateAnyTruthy d = false := by
    simp [updateAnyTruthy, h1, h2, h3, h4, h5, h6, h7, h8, h9]
  simp [validateUpdate, hall]

theorem updateAllFalsy_witness :
    validateUpdate falsyUpdateDraft
      = .error (.record "At least one field must be provided for update") :=
  updateAllFalsy_record_error falsyUpdateDraft rfl rfl rfl rfl rfl rfl rfl rfl rfl

/-- C1 counterexample: an update draft whose only supplied field is the
role string NOT_A_ROLE, which parses to no UserRole member, validates
successfully with the string kept verbatim, refuting the claim that a
role string matching no enumeration member is rejected. -/
theorem updateRole_unchecked_counterexample :
    validateUpdate (roleOnlyDraft "NOT_A_ROLE")
      = .ok ⟨none, none, none, none, none, none, none, none, some "NOT_A_ROLE"⟩
    ∧ parseUserRole "NOT_A_ROLE" = none := by
  exact ⟨by decide, by decide⟩

/-- C1 amended: on UpdateRecord the role field is a plain optional
string; any non-empty supplied string is accepted unchanged, with no
check against the UserRole enumeration. -/
theorem updateRole_any_string_kept (s : String) (h : s ≠ "") :
    validateUpdate (roleOnlyDraft s)
      = .ok ⟨none, none, none, none, none, none, none, none, some s⟩ := by
  have hs : (s == "") = false := by simpa using h
  simp [validateUpdate, updateAnyTruthy, roleOnlyDraft, RawVal.truthy, RawVal.toOpt, hs,
    updateEmailField, updateNicknameField, urlField, validate_url, validate_github_url,
    validate_linkedin_url]

theorem updateRole_any_string_kept_witness :
    validateUpdate (roleOnlyDraft "NOT_A_ROLE_EITHER")
      = .ok ⟨none, none, none, none, none, none, none, none, some "NOT_A_ROLE_EITHER"⟩ :=
  updateRole_any_string_kept "NOT_A_ROLE_EITHER" (by decide)

/-- C4 counterexample: when the nickname is absent and the generator
returns the two-character string ab, which is shorter than the nickname
min_length, create validation fails on the nickname field instead of
succeeding with that value: the generated nickname is re-validated. -/
theorem generatedNickname_revalidated_counterexample :
    validateCreate "ab" noNicknameDraft
      = .error (.fields [("nickname", "string does not meet the nickname constraints")]) := by
  decide

/-- C4 amended: with the nickname absent, the generator's string becomes
the nickname and then passes through the same min_length and pattern
constraints as a client-supplied value; validation succeeds with the
generated nickname exactly when the generated string conforms. -/
theorem generatedNickname_validated_like_input (gen : String) :
    validateCreate gen noNicknameDraft
      = if nicknameOk gen
        then .ok ⟨"john@example.com", some gen, none, none, none, none, none, none,
          .ADMIN, "Secure123"⟩
        else .error (.fields [("nickname", "string does not meet the nickname constraints")]) := by
  have he : createEmailField (RawVal.str "john@example.com") = .ok "john@example.com" := by decide
  have hr : createRoleField (RawVal.str "ADMIN") = .ok .ADMIN := by decide
  have hp : createPasswordField (RawVal.str "Secure123") = .ok "Secure123" := by decide
  have hn : createNicknameField gen .absent
      = if nicknameOk gen then .ok (some gen)
        else .error ("nickname", "string does not meet the nickname constraints") := rfl
  by_cases hok : nicknameOk gen
  · simp [validateCreate, noNicknameDraft, he, hr, hp, hn, hok, urlField, validate_url,
      validate_github_url, validate_linkedin_url, RawVal.toOpt]
  · simp [validateCreate, noNicknameDraft, he, hr, hp, hn, hok, urlField, validate_url,
      validate_github_url, validate_linkedin_url, RawVal.toOpt, createErrors, errsOf]

set_option linter.unnecessarySeqFocus false in
/-- C6: when any create field fails, validation fails with the single
aggregated error holding createErrors, the concatenation of every field's
errors in field order, and each individual field failure is a member of
that list: no failing field masks another. -/
theorem createValidation_aggregates_all_errors (gen : String) (d : CreateDraft)
    (h : createErrors gen d ≠ []) :
    validateCreate gen d = .error (.fields (createErrors gen d))
    ∧ (∀ e : String × String,
        (e ∈ errsOf (createEmailField d.email)
          ∨ e ∈ errsOf (createNicknameField gen d.nickname)
          ∨ e ∈ errsOf (urlField "profile_picture_url" validate_url d.profile_picture_url)
          ∨ e ∈ errsOf (urlField "linkedin_profile_url" validate_linkedin_url d.linkedin_profile_url)
          ∨ e ∈ errsOf (urlField "github_profile_url" validate_github_url d.github_profile_url)
          ∨ e ∈ errsOf (createRoleField d.role)
          ∨ e ∈ errsOf (createPasswordField d.password))
        → e ∈ createErrors gen d) := by
  constructor
  · rcases hE : createEmailField d.email with eE | vE <;>
      rcases hN : createNicknameField gen d.nickname with eN | vN <;>
      rcases hP : urlField "profile_picture_url" validate_url d.profile_picture_url with eP | vP <;>
      rcases hL : urlField "linkedin_profile_url" validate_linkedin_url d.linkedin_profile_url with eL | vL <;>
      rcases hG : urlField "github_profile_url" validate_github_url d.github_profile_url with eG | vG <;>
      rcases hR : createRoleField d.role with eR | vR <;>
      rcases hW : createPasswordField d.password with eW | vW <;>
      simp_all [validateCreate, createErrors, errsOf]
  · intro e he
    simp only [createErrors, List.mem_append]
    tauto

/-- C6 witness: a draft missing its email and carrying a short password
fails with both field errors aggregated in one error. -/
theorem createValidation_aggregates_witness :
    validateCreate "gn1" twoBadFieldsDraft
      = .error (.fields [("email", "Field required"),
          ("password", "Password must be at least 8 characters.")]) := by
  have h := (createValidation_aggregates_all_errors "gn1" twoBadFieldsDraft (by decide)).1
  have e : createErrors "gn1" twoBadFieldsDraft
      = [("email", "Field required"), ("password", "Password must be at least 8 characters.")] := by
    decide
  rw [e] at h
  exact h

theorem validate_password_ok_eq {s p : String} (h : validate_password s = .ok p) : p = s := by
  unfold validate_password at h
  split_ifs at h
  simp_all

theorem nicknameOk_ne_empty {s : String} (h : nicknameOk s = true) : (s == "") = false := by
  cases hs : s == "" with
  | false => rfl
  | true =>
    exfalso
    have hse : s = "" := by simpa using hs
    subst hse
    have : nicknameOk "" = false := by decide
    simp [this] at h

theorem nickConstraint_ok {s : String} {n : Option String}
    (h : nickConstraint s = .ok n) : n = some s ∧ nicknameOk s = true := by
  unfold nickConstraint at h
  split_ifs at h with hok
  exact ⟨by simpa using h.symm, hok⟩

theorem createNicknameField_idem (gen gen2 : String) {v : RawVal} {n : Option String}
    (h : createNicknameField gen v = .ok n) :
    createNicknameField gen2 n.toRaw = .ok n := by
  rcases nickConstraint_ok h with ⟨hn, hok⟩
  subst hn
  generalize hgen : resolveNickname gen v = t at hok ⊢
  have hne : (t == "") = false := nicknameOk_ne_empty hok
  show nickConstraint (resolveNickname gen2 (RawVal.str t)) = Except.ok (some t)
  have hres : resolveNickname gen2 (RawVal.str t) = t := by
    simp [resolveNickname, hne]
  rw [hres]
  unfold nickConstraint
  rw [if_pos hok]

theorem createEmailField_idem {v : RawVal} {e : String}
    (h : createEmailField v = .ok e) : createEmailField (.str e) = .ok e := by
  cases v with
  | absent => simp [createEmailField] at h
  | null => simp [createEmailField] at h
  | str s =>
    simp only [createEmailField] at h ⊢
    split_ifs at h with hv
    have hse : s = e := by simpa using h
    subst hse
    simp [hv]

theorem validate_url_ok_eq {x o : Option String} (h : validate_url x = .ok o) : o = x := by
  cases x with
  | none =>
    simp only [validate_url] at h
    simpa using h.symm
  | some s =>
    simp only [validate_url] at h
    split_ifs at h
    simpa using h.symm

theorem validate_github_url_ok_eq {x o : Option String}
    (h : validate_github_url x = .ok o) : o = x := by
  cases x with
  | none =>
    simp only [validate_github_url] at h
    simpa using h.symm
  | some s =>
    simp only [validate_github_url] at h
    split_ifs at h
    simpa using h.symm

theorem validate_linkedin_url_ok_eq {x o : Option String}
    (h : validate_linkedin_url x = .ok o) : o = x := by
  cases x with
  | none =>
    simp only [validate_linkedin_url] at h
    simpa using h.symm
  | some s =>
    simp only [validate_linkedin_url] at h
    split_ifs at h
    simpa using h.symm

theorem urlField_idem {name : String} {f : Option String → Except String (Option String)}
    (hstable : ∀ x o, f x = .ok o → o = x) {v : RawVal} {o : Option String}
    (h : urlField name f v = .ok o) : urlField name f o.toRaw = .ok o := by
  unfold urlField at h ⊢
  cases hv : f v.toOpt with
  | error m => rw [hv] at h; simp at h
  | ok o2 =>
    rw [hv] at h
    simp at h
    subst h
    have ho : o2 = v.toOpt := hstable _ _ hv
    rw [toRaw_toOpt, ho, hv]
    simp [ho]

theorem createRoleField_asString (r : UserRole) :
    createRoleField (.str r.asString) = .ok r := by
  simp [createRoleField, parse_asString]

theorem createPasswordField_idem {v : RawVal} {p : String}
    (h : createPasswordField v = .ok p) : createPasswordField (.str p) = .ok p := by
  cases v with
  | absent => simp [createPasswordField] at h
  | null => simp [createPasswordField] at h
  | str s =>
    simp only [createPasswordField] at h
    cases hv : validate_password s with
    | error m => rw [hv] at h; simp at h
    | ok q =>
      rw [hv] at h
      simp at h
      subst h
      have hqs : q = s := validate_password_ok_eq hv
      subst hqs
      simp only [createPasswordField]
      rw [hv]

/-- C9: create validation is idempotent: a normalized record fed back in
as a raw draft validates successfully to the same record, whatever string
the generator returns on the second run. -/
theorem createValidation_idempotent (gen gen2 : String) (d : CreateDraft) (r : UserCreate)
    (h : validateCreate gen d = .ok r) :
    validateCreate gen2 (draftOfCreate r) = .ok r := by
  unfold validateCreate at h
  rcases hE : createEmailField d.email with eE | vE
  · rw [hE] at h; simp at h
  rw [hE] at h
  rcases hN : createNicknameField gen d.nickname with eN | vN
  · rw [hN] at h; simp at h
  rw [hN] at h
  rcases hP : urlField "profile_picture_url" validate_url d.profile_picture_url with eP | vP
  · rw [hP] at h; simp at h
  rw [hP] at h
  rcases hL : urlField "linkedin_profile_url" validate_linkedin_url d.linkedin_profile_url with eL | vL
  · rw [hL] at h; simp at h
  rw [hL] at h
  rcases hG : urlField "github_profile_url" validate_github_url d.github_profile_url with eG | vG
  · rw [hG] at h; simp at h
  rw [hG] at h
  rcases hR : createRoleField d.role with eR | vR
  · rw [hR] at h; simp at h
  rw [hR] at h
  rcases hW : createPasswordField d.password with eW | vW
  · rw [hW] at h; simp at h
  rw [hW] at h
  simp only [] at h
  have hr : r = ⟨vE, vN, d.first_name.toOpt, d.last_name.toOpt, d.bio.toOpt, vP, vL, vG, vR, vW⟩ := by
    exact (Except.ok.inj h).symm
  subst hr
  unfold validateCreate draftOfCreate
  simp only []
  rw [createEmailField_idem hE, createNicknameField_idem gen gen2 hN,
    urlField_idem (fun x o => validate_url_ok_eq) hP,
    urlField_idem (fun x o => validate_linkedin_url_ok_eq) hL,
    urlField_idem (fun x o => validate_github_url_ok_eq) hG,
    createRoleField_asString vR, createPasswordField_idem hW]
  simp [toRaw_toOpt]

/-- C9 witness: the record obtained from the demo draft under generator
string gennick1 re-validates to itself under a different generator. -/
theorem createValidation_idempotent_witness :
    validateCreate "member2" (draftOfCreate demoCreateRecord) = .ok demoCreateRecord :=
  createValidation_idempotent "gennick1" "member2" demoCreateDraft demoCreateRecord (by decide)
